import Mathlib

/-!
Shallow embedding of the Protected QR service core
(`src/services/qr.service.ts`, `src/utils/hex.ts`, `src/config/index.ts`).

Modelling conventions:
- JS strings that participate in byte-level processing (tokens, hex fields)
  are modelled as `List Char`; byte buffers as `List Nat` with entries < 256.
- Stateful collaborators (the pattern service HTTP calls via axios, the
  MongoDB collections) are modelled by explicit dependency records carrying
  the outcome of each external call, and by explicit state passing of the
  collection contents; a JS exception is an `Except` error.
- `crypto.createHmac("sha256", secret)` is embedded as a full HMAC-SHA-256
  implementation over byte lists; the secret string is modelled by its bytes.
-/

namespace PQR

/-- Truncate to 32 bits, as JS/Node 32-bit word arithmetic inside SHA-256. -/
def w32 (x : Nat) : Nat := x % 4294967296

/-- Rotate a 32-bit word right by `n`. -/
def rotr (n x : Nat) : Nat := w32 (x / 2 ^ n + x % 2 ^ n * 2 ^ (32 - n))

/-- SHA-256 round constants (the 64 words of FIPS 180-4, written in decimal). -/
def sha256K : List Nat :=
  [1116352408, 1899447441, 3049323471, 3921009573,
   961987163, 1508970993, 2453635748, 2870763221,
   3624381080, 310598401, 607225278, 1426881987,
   1925078388, 2162078206, 2614888103, 3248222580,
   3835390401, 4022224774, 264347078, 604807628,
   770255983, 1249150122, 1555081692, 1996064986,
   2554220882, 2821834349, 2952996808, 3210313671,
   3336571891, 3584528711, 113926993, 338241895,
   666307205, 773529912, 1294757372, 1396182291,
   1695183700, 1986661051, 2177026350, 2456956037,
   2730485921, 2820302411, 3259730800, 3345764771,
   3516065817, 3600352804, 4094571909, 275423344,
   430227734, 506948616, 659060556, 883997877,
   958139571, 1322822218, 1537002063, 1747873779,
   1955562222, 2024104815, 2227730452, 2361852424,
   2428436474, 2756734187, 3204031479, 3329325298]

/-- Small sigma 0 of the SHA-256 message schedule. -/
def lsig0 (x : Nat) : Nat := rotr 7 x ^^^ rotr 18 x ^^^ (x / 2 ^ 3)

/-- Small sigma 1 of the SHA-256 message schedule. -/
def lsig1 (x : Nat) : Nat := rotr 17 x ^^^ rotr 19 x ^^^ (x / 2 ^ 10)

/-- Big sigma 0 of the SHA-256 compression function. -/
def bsig0 (x : Nat) : Nat := rotr 2 x ^^^ rotr 13 x ^^^ rotr 22 x

/-- Big sigma 1 of the SHA-256 compression function. -/
def bsig1 (x : Nat) : Nat := rotr 6 x ^^^ rotr 11 x ^^^ rotr 25 x

/-- SHA-256 choice function on 32-bit words. -/
def chB (e f g : Nat) : Nat := (e &&& f) ^^^ ((0xffffffff ^^^ e) &&& g)

/-- SHA-256 majority function on 32-bit words. -/
def majB (a b c : Nat) : Nat := (a &&& b) ^^^ (a &&& c) ^^^ (b &&& c)

/-- The eight 32-bit working variables of the SHA-256 compression function. -/
structure Hash8 where
  a : Nat
  b : Nat
  c : Nat
  d : Nat
  e : Nat
  f : Nat
  g : Nat
  h : Nat
deriving Repr, DecidableEq

/-- One SHA-256 compression round with round constant `k` and schedule word `w`. -/
def sha256Round (st : Hash8) (k w : Nat) : Hash8 :=
  let t1 := w32 (st.h + bsig1 st.e + chB st.e st.f st.g + k + w)
  let t2 := w32 (bsig0 st.a + majB st.a st.b st.c)
  ⟨w32 (t1 + t2), st.a, st.b, st.c, w32 (st.d + t1), st.e, st.f, st.g⟩

/-- Big-endian 32-bit words from a byte list (groups of 4). -/
def bytesToWords : List Nat → List Nat
  | a :: b :: c :: d :: rest =>
      (a * 2 ^ 24 + b * 2 ^ 16 + c * 2 ^ 8 + d) :: bytesToWords rest
  | _ => []

/-- Extend the message schedule `n` more words; `acc` holds words in reverse. -/
def scheduleExtend : Nat → List Nat → List Nat
  | 0, acc => acc
  | n + 1, acc =>
      let w2 := acc.getD 1 0
      let w7 := acc.getD 6 0
      let w15 := acc.getD 14 0
      let w16 := acc.getD 15 0
      scheduleExtend n (w32 (lsig1 w2 + w7 + lsig0 w15 + w16) :: acc)

/-- Compress one 64-byte block into the running hash state. -/
def sha256Compress (st : Hash8) (block : List Nat) : Hash8 :=
  let ws := (scheduleExtend 48 (bytesToWords block).reverse).reverse
  let r := (sha256K.zip ws).foldl (fun s kw => sha256Round s kw.1 kw.2) st
  ⟨w32 (st.a + r.a), w32 (st.b + r.b), w32 (st.c + r.c), w32 (st.d + r.d),
   w32 (st.e + r.e), w32 (st.f + r.f), w32 (st.g + r.g), w32 (st.h + r.h)⟩

/-- 8-byte big-endian encoding of a (length) value. -/
def toBE8 (v : Nat) : List Nat :=
  [v / 2 ^ 56 % 256, v / 2 ^ 48 % 256, v / 2 ^ 40 % 256, v / 2 ^ 32 % 256,
   v / 2 ^ 24 % 256, v / 2 ^ 16 % 256, v / 2 ^ 8 % 256, v % 256]

/-- 4-byte big-endian encoding of each 32-bit word. -/
def wordsToBytes : List Nat → List Nat
  | [] => []
  | w :: rest => w / 2 ^ 24 % 256 :: w / 2 ^ 16 % 256 :: w / 2 ^ 8 % 256 :: w % 256 :: wordsToBytes rest

/-- Split a byte list into 64-byte chunks; the fuel bounds the recursion depth
so the definition is structurally recursive and kernel-reducible. -/
def chunks64Aux : Nat → List Nat → List (List Nat)
  | 0, _ => []
  | _, [] => []
  | fuel + 1, l => l.take 64 :: chunks64Aux fuel (l.drop 64)

/-- Split a byte list into 64-byte chunks. -/
def chunks64 (l : List Nat) : List (List Nat) := chunks64Aux l.length l

/-- SHA-256 padding: `0x80`, zeros to 56 mod 64, then the 64-bit bit length. -/
def sha256Pad (msg : List Nat) : List Nat :=
  msg ++ 0x80 :: List.replicate ((119 - msg.length % 64) % 64) 0 ++ toBE8 (8 * msg.length)

/-- Full SHA-256 over a byte list, producing the 32 digest bytes. -/
def sha256 (msg : List Nat) : List Nat :=
  let st := (chunks64 (sha256Pad msg)).foldl sha256Compress
    ⟨1779033703, 3144134277, 1013904242, 2773480762,
     1359893119, 2600822924, 528734635, 1541459225⟩
  wordsToBytes [st.a, st.b, st.c, st.d, st.e, st.f, st.g, st.h]

/-- HMAC-SHA-256 over byte lists, as `crypto.createHmac("sha256", key)`. -/
def hmacSha256 (key msg : List Nat) : List Nat :=
  let k0 := if 64 < key.length then sha256 key else key
  let kPad := k0 ++ List.replicate (64 - k0.length) 0
  let ipad := kPad.map (fun b => b ^^^ 0x36)
  let opad := kPad.map (fun b => b ^^^ 0x5c)
  sha256 (opad ++ sha256 (ipad ++ msg))

/-- JS strings that take part in byte-level processing are character lists. -/
abbrev JSStr := List Char

/-- `src/utils/http-exception.ts`: HTTP status plus human-readable message
(the optional `details` record is never set by the embedded code paths). -/
structure HttpException where
  status : Nat
  message : String
deriving Repr, DecidableEq

/-- The character class of the regex `/^[0-9a-fA-F]+$/` in `src/utils/hex.ts`,
 written over code points (`0`-`9` is 48-57, `a`-`f` is 97-102, `A`-`F` is 65-70). -/
def isHexChar (c : Char) : Bool :=
  (48 ≤ c.toNat && c.toNat ≤ 57) || (97 ≤ c.toNat && c.toNat ≤ 102)
    || (65 ≤ c.toNat && c.toNat ≤ 70)

/-- `assertHexLength` from `src/utils/hex.ts`: the regex test fails on the
empty string (the `+` quantifier) and on any non-hex character; the length
check runs only after the character-class check. -/
def assertHexLength (label : String) (value : JSStr) (expectedLength : Nat) :
    Except HttpException Unit :=
  if !(!value.isEmpty && value.all isHexChar) then
    .error ⟨400, label ++ " must be hex string"⟩
  else if value.length ≠ expectedLength then
    .error ⟨400, label ++ " must be " ++ toString expectedLength ++ " hex chars"⟩
  else
    .ok ()

/-- Value of one hex digit, accepting both upper and lower case. -/
def hexVal (c : Char) : Option Nat :=
  if 48 ≤ c.toNat ∧ c.toNat ≤ 57 then some (c.toNat - 48)
  else if 97 ≤ c.toNat ∧ c.toNat ≤ 102 then some (c.toNat - 87)
  else if 65 ≤ c.toNat ∧ c.toNat ≤ 70 then some (c.toNat - 55)
  else none

/-- `hexToBuffer` from `src/utils/hex.ts`, i.e. `Buffer.from(value, "hex")`:
decode hex pairs, stopping at the first invalid pair or odd trailing digit. -/
def hexToBuffer : JSStr → List Nat
  | c1 :: c2 :: rest =>
      match hexVal c1, hexVal c2 with
      | some hi, some lo => (hi * 16 + lo) :: hexToBuffer rest
      | _, _ => []
  | _ => []

/-- Lowercase hex digit for a value below 16. -/
def hexDigitChar (n : Nat) : Char :=
  if n < 10 then Char.ofNat (n + 48) else Char.ofNat (n + 87)

/-- `buffer.toString("hex")`: lowercase hex, two characters per byte. -/
def bufferToHex (bs : List Nat) : JSStr :=
  (bs.map (fun b => [hexDigitChar (b / 16), hexDigitChar (b % 16)])).flatten

/-- Character of one 6-bit value in the standard Base64 alphabet. -/
def b64Char (v : Nat) : Char :=
  if v < 26 then Char.ofNat (v + 65)
  else if v < 52 then Char.ofNat (v + 71)
  else if v < 62 then Char.ofNat (v - 4)
  else if v = 62 then '+'
  else '/'

/-- 6-bit value of a standard-alphabet Base64 character; `none` for characters
outside the alphabet (including `=`), which Node's decoder skips. -/
def b64CharVal (c : Char) : Option Nat :=
  if 65 ≤ c.toNat ∧ c.toNat ≤ 90 then some (c.toNat - 65)
  else if 97 ≤ c.toNat ∧ c.toNat ≤ 122 then some (c.toNat - 71)
  else if 48 ≤ c.toNat ∧ c.toNat ≤ 57 then some (c.toNat + 4)
  else if c = '+' then some 62
  else if c = '/' then some 63
  else none

/-- 6-bit groups of a byte list, in 3-byte chunks with partial final chunk. -/
def bytesToVals : List Nat → List Nat
  | [] => []
  | [a] => [a / 4, a % 4 * 16]
  | [a, b] => [a / 4, a % 4 * 16 + b / 16, b % 16 * 4]
  | a :: b :: c :: rest =>
      a / 4 :: (a % 4 * 16 + b / 16) :: (b % 16 * 4 + c / 64) :: c % 64 :: bytesToVals rest

/-- `buffer.toString("base64")`: standard alphabet with `=` padding. -/
def base64Encode (bs : List Nat) : JSStr :=
  (bytesToVals bs).map b64Char ++ List.replicate ((3 - bs.length % 3) % 3) '='

/-- Reassemble bytes from 6-bit groups (4 groups per 3 bytes; a trailing pair
or triple of groups contributes 1 or 2 bytes; one leftover group is dropped). -/
def valsToBytes : List Nat → List Nat
  | a :: b :: c :: d :: rest =>
      (a * 4 + b / 16) :: (b % 16 * 16 + c / 4) :: (c % 4 * 64 + d) :: valsToBytes rest
  | [a, b] => [a * 4 + b / 16]
  | [a, b, c] => [a * 4 + b / 16, b % 16 * 16 + c / 4]
  | _ => []

/-- `Buffer.from(s, "base64")`: Node's lenient decoder skips characters
outside the Base64 alphabet (`=` included) and decodes the 6-bit groups. -/
def base64Decode (s : JSStr) : List Nat := valsToBytes (s.filterMap b64CharVal)

/-- `s.replace(/a/g, b)` for single characters. -/
def replaceChar (a b : Char) (s : JSStr) : JSStr := s.map (fun c => if c = a then b else c)

/-- `s.replace(/a/g, "")` for a single character. -/
def removeChar (a : Char) (s : JSStr) : JSStr := s.filter (fun c => c != a)

/-- Input record of `QrService.generate` (`src/services/qr.types.ts`). -/
structure GenerateQrInput where
  data_hash : JSStr
  metadata_series : JSStr
  metadata_issued : JSStr
  metadata_expiry : JSStr
deriving Repr, DecidableEq

/-- Output record of `QrService.generate`; `qr_image_base64` is optional at
runtime because it is read via `pythonRes.data?.qr_image_base64`. -/
structure GenerateQrOutput where
  token : JSStr
  qr_image_base64 : Option JSStr
deriving Repr, DecidableEq

/-- The metadata record produced by `QrService.decodeToken`. -/
structure DecodedMeta where
  data_hash : JSStr
  metadata_series : JSStr
  metadata_issued : JSStr
  metadata_expiry : JSStr
deriving Repr, DecidableEq

/-- Output record of `QrService.verify`. Confidence scores are opaque JS
numbers on which the service does no arithmetic; they are modelled as `Rat`. -/
structure VerifyQrOutput where
  is_authentic : Bool
  confidence_score : Rat
  decoded_meta : Option DecodedMeta
deriving Repr, DecidableEq

/-- Document inserted into the `qr_audit` collection by `generate`. -/
structure AuditRecord where
  token : JSStr
  data_hash : JSStr
  metadata_series : JSStr
  metadata_issued : JSStr
  metadata_expiry : JSStr
  created_at : Nat
deriving Repr, DecidableEq

/-- Document inserted into the `qr_verify_logs` collection by `verify`. -/
structure VerifyRecord where
  token : Option JSStr
  confidence_score : Rat
  is_authentic : Bool
  created_at : Nat
deriving Repr, DecidableEq

/-- The exceptions a service call can propagate: a thrown `HttpException`
from validation, Node's `RangeError` from `writeUIntBE`, an axios rejection,
or a MongoDB insert failure. -/
inductive ServiceError where
  | http (e : HttpException)
  | range (msg : String)
  | upstream (msg : String)
  | persistence (msg : String)
deriving Repr, DecidableEq

/-- `Buffer.alloc(6)` followed by `writeUIntBE(value, 0, 6)`: Node throws
`ERR_OUT_OF_RANGE` unless `0 <= value < 2^48`; otherwise the six bytes are
the big-endian encoding of the value. -/
def writeUInt48BE (value : Nat) : Except String (List Nat) :=
  if value < 2 ^ 48 then
    .ok [value / 2 ^ 40 % 256, value / 2 ^ 32 % 256, value / 2 ^ 24 % 256,
         value / 2 ^ 16 % 256, value / 2 ^ 8 % 256, value % 256]
  else
    .error "ERR_OUT_OF_RANGE"

/-- `data` object of the render response; `qr_image_base64` may be absent. -/
structure RenderData where
  qr_image_base64 : Option JSStr
deriving Repr, DecidableEq

/-- `data` object of the detect response; all fields may be absent. -/
structure DetectData where
  token : Option JSStr
  confidence_score : Option Rat
  is_authentic : Option Bool
deriving Repr, DecidableEq

deriving instance DecidableEq for Except

/-- Request-scoped collaborator outcomes of one `generate` call: the clock
reading, the axios render call (whose `data` may be falsy), the audit insert,
and the `new Date()` used for `created_at`. -/
structure GenerateDeps where
  timestampMs : Nat
  renderResult : Except String (Option RenderData)
  auditInsert : Except String Unit
  now : Nat
deriving Repr, DecidableEq

/-- Request-scoped collaborator outcomes of one `verify` call. -/
structure VerifyDeps where
  detectResult : Except String (Option DetectData)
  verifyInsert : Except String Unit
  now : Nat
deriving Repr, DecidableEq

/-- The four sequential `assertHexLength` calls opening `QrService.generate`;
the nested matches stop at the first thrown exception exactly as JS `throw` does. -/
def validateGenerateInput (input : GenerateQrInput) : Except HttpException Unit :=
  match assertHexLength "data_hash" input.data_hash 8 with
  | .error e => .error e
  | .ok () =>
  match assertHexLength "metadata_series" input.metadata_series 16 with
  | .error e => .error e
  | .ok () =>
  match assertHexLength "metadata_issued" input.metadata_issued 16 with
  | .error e => .error e
  | .ok () => assertHexLength "metadata_expiry" input.metadata_expiry 16

/-- The timestamp write plus the `Buffer.concat` in `generate`: timestamp
bytes then the four field byte runs, in source order. -/
def packPayload (timestampMs : Nat) (input : GenerateQrInput) : Except String (List Nat) :=
  match writeUInt48BE timestampMs with
  | .error e => .error e
  | .ok tsBuffer =>
      .ok (tsBuffer ++ hexToBuffer input.data_hash ++ hexToBuffer input.metadata_series
        ++ hexToBuffer input.metadata_issued ++ hexToBuffer input.metadata_expiry)

/-- `crypto.createHmac("sha256", secret).update(payload).digest("hex").slice(0, 32)`. -/
def sign (secret payload : List Nat) : JSStr := (bufferToHex (hmacSha256 secret payload)).take 32

/-- `payloadBinary.toString("base64").replace(/\+/g, "-").replace(/\//g, "_").replace(/=/g, "")`. -/
def base64UrlNoPad (bs : List Nat) : JSStr :=
  removeChar '=' (replaceChar '/' '_' (replaceChar '+' '-' (base64Encode bs)))

/-- The token string interpolation in `generate`. -/
def encodeToken (secret payload : List Nat) : JSStr :=
  base64UrlNoPad payload ++ '.' :: sign secret payload

/-- `payload.subarray(s, e)`. -/
def sub (bs : List Nat) (s e : Nat) : List Nat := (bs.drop s).take (e - s)

/-- The tail of `QrService.decodeToken`: the length guard and the four
fixed-offset `subarray(...).toString("hex")` extractions. -/
def unpackPayload (payload : List Nat) : Option DecodedMeta :=
  if payload.length ≠ 34 then none
  else some ⟨bufferToHex (sub payload 6 10), bufferToHex (sub payload 10 18),
             bufferToHex (sub payload 18 26), bufferToHex (sub payload 26 34)⟩

/-- `QrService.decodeToken` from `src/services/qr.service.ts`: take the part
before the first `.`, restore the standard Base64 alphabet, re-add padding,
decode, and unpack. Every step is total, so the function never throws. -/
def QrService.decodeToken (token : JSStr) : Option DecodedMeta :=
  let payloadB64 := token.takeWhile (fun c => c != '.')
  let padded := replaceChar '_' '/' (replaceChar '-' '+' payloadB64)
  let padLength := (4 - padded.length % 4) % 4
  let paddedB64 := padded ++ List.replicate padLength '='
  let payload := base64Decode paddedB64
  unpackPayload payload

/-- `QrService.generate` without the store state: the sequence of throw
points, the produced output record, and the audit document it inserts. -/
def QrService.generateE (secret : List Nat) (deps : GenerateDeps) (input : GenerateQrInput) :
    Except ServiceError (GenerateQrOutput × AuditRecord) :=
  match validateGenerateInput input with
  | .error e => .error (.http e)
  | .ok () =>
  match packPayload deps.timestampMs input with
  | .error m => .error (.range m)
  | .ok payloadBinary =>
  let token := encodeToken secret payloadBinary
  match deps.renderResult with
  | .error m => .error (.upstream m)
  | .ok data =>
  let qrImageBase64 := data.bind (fun r => r.qr_image_base64)
  match deps.auditInsert with
  | .error m => .error (.persistence m)
  | .ok () =>
    .ok (⟨token, qrImageBase64⟩,
      ⟨token, input.data_hash, input.metadata_series, input.metadata_issued,
       input.metadata_expiry, deps.now⟩)

/-- `QrService.generate` with the `qr_audit` collection passed as state: the
single `insertOne` is awaited before the return, and a thrown error at any
point leaves the collection unchanged. -/
def QrService.generate (secret : List Nat) (deps : GenerateDeps) (input : GenerateQrInput)
    (audit : List AuditRecord) : Except ServiceError GenerateQrOutput × List AuditRecord :=
  match QrService.generateE secret deps input with
  | .error e => (.error e, audit)
  | .ok (out, rec) => (.ok out, audit ++ [rec])

/-- JS truthiness of the optional token string (`undefined` and `""` falsy). -/
def truthyStr : Option JSStr → Bool
  | some s => !s.isEmpty
  | none => false

/-- `QrService.verify` without the store state. The detect call may reject;
its `data` may be falsy (`pythonRes.data || {}`); `decodeToken` runs only on
a truthy token; the verify document stores `token ?? null`, the score
defaulted with `?? 0`, and `Boolean(is_authentic)`. -/
def QrService.verifyE (deps : VerifyDeps) (_imageBase64 : JSStr) :
    Except ServiceError (VerifyQrOutput × VerifyRecord) :=
  match deps.detectResult with
  | .error m => .error (.upstream m)
  | .ok data =>
  let d := data.getD ⟨none, none, none⟩
  let decodedMeta := if truthyStr d.token then QrService.decodeToken (d.token.getD []) else none
  match deps.verifyInsert with
  | .error m => .error (.persistence m)
  | .ok () =>
    .ok (⟨d.is_authentic.getD false, d.confidence_score.getD 0, decodedMeta⟩,
      ⟨d.token, d.confidence_score.getD 0, d.is_authentic.getD false, deps.now⟩)

/-- `QrService.verify` with the `qr_verify_logs` collection passed as state. -/
def QrService.verify (deps : VerifyDeps) (imageBase64 : JSStr)
    (store : List VerifyRecord) : Except ServiceError VerifyQrOutput × List VerifyRecord :=
  match QrService.verifyE deps imageBase64 with
  | .error e => (.error e, store)
  | .ok (out, rec) => (.ok out, store ++ [rec])

/-- Runtime configuration record of `src/config/index.ts`. `port` and
`requestTimeoutMs` keep the raw text the JS code passes through `Number(...)`
(a total conversion that cannot fail at start-up). -/
structure Config where
  port : String
  mongoUri : String
  mongoDb : String
  pythonServiceUrl : String
  hmacSecret : String
  logLevel : String
  requestTimeoutMs : String
deriving Repr, DecidableEq

/-- `required` from `src/config/index.ts`: `process.env[key] ?? fallback`
followed by a falsy check, so a present-but-empty variable also throws and a
missing variable without fallback throws `Missing required env: <key>`. -/
def requiredEnv (env : String → Option String) (key : String) (fallback : Option String) :
    Except String String :=
  let value := match env key with
    | some v => v
    | none => fallback.getD ""
  if value = "" then .error ("Missing required env: " ++ key) else .ok value

/-- The `config` object literal of `src/config/index.ts`, evaluated in field
order at module load; the first failing `required` call aborts start-up. -/
def loadConfig (env : String → Option String) : Except String Config :=
  let port := (env "PORT").getD "8080"
  match requiredEnv env "MONGO_URI" none with
  | .error e => .error e
  | .ok mongoUri =>
  match requiredEnv env "MONGO_DB" (some "protected_qr") with
  | .error e => .error e
  | .ok mongoDb =>
  match requiredEnv env "PYTHON_SERVICE_URL" none with
  | .error e => .error e
  | .ok pythonServiceUrl =>
  match requiredEnv env "HMAC_SECRET" none with
  | .error e => .error e
  | .ok hmacSecret =>
    let logLevel := (env "LOG_LEVEL").getD "info"
    let requestTimeoutMs := (env "REQUEST_TIMEOUT_MS").getD "10000"
    .ok ⟨port, mongoUri, mongoDb, pythonServiceUrl, hmacSecret, logLevel, requestTimeoutMs⟩

/-! ### Base64 round-trip lemmas -/

/-- The per-character action of `.replace(/\+/g, "-").replace(/\//g, "_")`. -/
def uE (c : Char) : Char := if c = '+' then '-' else if c = '/' then '_' else c

/-- The per-character action of the dash-to-plus and underscore-to-slash
global replaces on the decode path. -/
def uD (c : Char) : Char := if c = '-' then '+' else if c = '_' then '/' else c

lemma replaceChar_enc_comp (l : JSStr) :
    replaceChar '/' '_' (replaceChar '+' '-' l) = l.map uE := by
  simp only [replaceChar, List.map_map]
  refine List.map_congr_left (fun c _ => ?_)
  by_cases h1 : c = '+' <;> by_cases h2 : c = '/' <;> simp [uE, h1, h2, Function.comp]

lemma replaceChar_dec_comp (l : JSStr) :
    replaceChar '_' '/' (replaceChar '-' '+' l) = l.map uD := by
  simp only [replaceChar, List.map_map]
  refine List.map_congr_left (fun c _ => ?_)
  by_cases h1 : c = '-' <;> by_cases h2 : c = '_' <;> simp [uD, h1, h2, Function.comp]

lemma b64CharVal_uD_uE_b64Char : ∀ v < 64, b64CharVal (uD (uE (b64Char v))) = some v := by decide

lemma uE_b64Char_ne_pad : ∀ v < 64, ((uE (b64Char v)) != '=') = true := by decide

lemma uE_b64Char_ne_dot : ∀ v < 64, ((uE (b64Char v)) != '.') = true := by decide

lemma valsToBytes_bytesToVals (bs : List Nat) (h : ∀ x ∈ bs, x < 256) :
    valsToBytes (bytesToVals bs) = bs := by
  induction bs using bytesToVals.induct with
  | case1 => rfl
  | case2 a =>
    have ha : a < 256 := h a (by simp)
    simp only [bytesToVals, valsToBytes, List.cons.injEq, and_true]
    omega
  | case3 a b =>
    have ha : a < 256 := h a (by simp)
    have hb : b < 256 := h b (by simp)
    simp only [bytesToVals, valsToBytes, List.cons.injEq, and_true]
    constructor <;> omega
  | case4 a b c rest ih =>
    have ha : a < 256 := h a (by simp)
    have hb : b < 256 := h b (by simp)
    have hc : c < 256 := h c (by simp)
    have hrest := ih (fun x hx => h x (by simp [hx]))
    simp only [bytesToVals, valsToBytes, hrest, List.cons.injEq, and_true]
    refine ⟨?_, ?_, ?_⟩ <;> omega

lemma bytesToVals_lt_64 (bs : List Nat) (h : ∀ x ∈ bs, x < 256) :
    ∀ v ∈ bytesToVals bs, v < 64 := by
  induction bs using bytesToVals.induct with
  | case1 => simp [bytesToVals]
  | case2 a =>
    have ha : a < 256 := h a (by simp)
    intro v hv
    simp only [bytesToVals, List.mem_cons, List.mem_singleton] at hv
    rcases hv with rfl | rfl | hv
    · omega
    · omega
    · simp at hv
  | case3 a b =>
    have ha : a < 256 := h a (by simp)
    have hb : b < 256 := h b (by simp)
    intro v hv
    simp only [bytesToVals, List.mem_cons, List.mem_singleton] at hv
    rcases hv with rfl | rfl | rfl | hv
    · omega
    · omega
    · omega
    · simp at hv
  | case4 a b c rest ih =>
    have ha : a < 256 := h a (by simp)
    have hb : b < 256 := h b (by simp)
    have hc : c < 256 := h c (by simp)
    have hrest := ih (fun x hx => h x (by simp [hx]))
    intro v hv
    simp only [bytesToVals, List.mem_cons] at hv
    rcases hv with rfl | rfl | rfl | rfl | hv
    · omega
    · omega
    · omega
    · omega
    · exact hrest v hv

lemma bytesToVals_length_mod3_one (bs : List Nat) (h : bs.length % 3 = 1) :
    (bytesToVals bs).length = bs.length / 3 * 4 + 2 := by
  induction bs using bytesToVals.induct with
  | case1 => simp at h
  | case2 a => simp [bytesToVals]
  | case3 a b => simp at h
  | case4 a b c rest ih =>
    have hr : rest.length % 3 = 1 := by
      simp only [List.length_cons] at h
      omega
    have := ih hr
    simp only [bytesToVals, List.length_cons, this]
    omega

lemma filter_replicate_pad (n : Nat) :
    (List.replicate n '=').filter (fun c => c != '=') = [] := by
  induction n with
  | zero => rfl
  | succ k ih => simp [List.replicate_succ, ih]

lemma filterMap_replicate_pad (n : Nat) :
    (List.replicate n '=').filterMap b64CharVal = [] := by
  induction n with
  | zero => rfl
  | succ k ih =>
    simp only [List.replicate_succ, List.filterMap_cons, ih]
    rfl

lemma filterMap_some_id (f : Nat → Option Nat) (l : List Nat) (h : ∀ v ∈ l, f v = some v) :
    l.filterMap f = l := by
  induction l with
  | nil => rfl
  | cons a rest ih =>
    simp only [List.filterMap_cons, h a (by simp)]
    rw [ih (fun v hv => h v (by simp [hv]))]

lemma base64UrlNoPad_eq_map (bs : List Nat) (h : ∀ x ∈ bs, x < 256) :
    base64UrlNoPad bs = (bytesToVals bs).map (fun v => uE (b64Char v)) := by
  have hv := bytesToVals_lt_64 bs h
  simp only [base64UrlNoPad, base64Encode, replaceChar_enc_comp, removeChar,
    List.map_append, List.map_map, List.map_replicate, List.filter_append]
  have hpad : uE '=' = '=' := rfl
  rw [hpad, filter_replicate_pad, List.append_nil]
  rw [show (uE ∘ b64Char) = (fun v => uE (b64Char v)) from rfl]
  rw [List.filter_eq_self.mpr]
  intro c hc
  simp only [List.mem_map] at hc
  obtain ⟨v, hvmem, rfl⟩ := hc
  exact uE_b64Char_ne_pad v (hv v hvmem)

lemma mem_base64UrlNoPad_ne_dot (bs : List Nat) (h : ∀ x ∈ bs, x < 256) :
    ∀ c ∈ base64UrlNoPad bs, (c != '.') = true := by
  rw [base64UrlNoPad_eq_map bs h]
  intro c hc
  simp only [List.mem_map] at hc
  obtain ⟨v, hvmem, rfl⟩ := hc
  exact uE_b64Char_ne_dot v (bytesToVals_lt_64 bs h v hvmem)

lemma takeWhile_append_dot (l1 l2 : JSStr) (h : ∀ c ∈ l1, (c != '.') = true) :
    (l1 ++ '.' :: l2).takeWhile (fun c => c != '.') = l1 := by
  induction l1 with
  | nil => simp [List.takeWhile_cons]
  | cons a rest ih =>
    rw [List.cons_append, List.takeWhile_cons, if_pos (h a (by simp)),
        ih (fun c hc => h c (by simp [hc]))]

/-- Decoding the URL-safe, unpadded encoding of any byte list (with any number
of `=` padding characters re-appended) recovers the byte list. -/
lemma base64Decode_url_roundtrip (bs : List Nat) (h : ∀ x ∈ bs, x < 256) (k : Nat) :
    base64Decode (replaceChar '_' '/' (replaceChar '-' '+' (base64UrlNoPad bs))
      ++ List.replicate k '=') = bs := by
  have hv := bytesToVals_lt_64 bs h
  rw [base64UrlNoPad_eq_map bs h]
  simp only [base64Decode, replaceChar_dec_comp, List.map_map, List.filterMap_append,
    filterMap_replicate_pad, List.append_nil, List.filterMap_map]
  rw [show (b64CharVal ∘ uD ∘ fun v => uE (b64Char v))
        = (fun v => b64CharVal (uD (uE (b64Char v)))) from rfl]
  rw [filterMap_some_id _ _ (fun v hvmem => b64CharVal_uD_uE_b64Char v (hv v hvmem))]
  exact valsToBytes_bytesToVals bs h

/-- `decodeToken` inverts `encodeToken` up to the length-34 unpack guard:
the signature segment is split off and otherwise ignored. -/
lemma decodeToken_encodeToken (secret bs : List Nat) (h : ∀ x ∈ bs, x < 256) :
    QrService.decodeToken (encodeToken secret bs) = unpackPayload bs := by
  simp only [QrService.decodeToken, encodeToken,
    takeWhile_append_dot _ _ (mem_base64UrlNoPad_ne_dot bs h)]
  rw [base64Decode_url_roundtrip bs h]

/-! ### Hex, digest-length and payload-shape lemmas -/

lemma hexVal_isHexChar (c : Char) (h : isHexChar c = true) :
    ∃ v, hexVal c = some v ∧ v < 16 := by
  simp only [isHexChar, Bool.or_eq_true, Bool.and_eq_true, decide_eq_true_eq] at h
  unfold hexVal
  split
  · rename_i hc
    exact ⟨_, rfl, by omega⟩
  · split
    · rename_i hc
      exact ⟨_, rfl, by omega⟩
    · split
      · rename_i hc
        exact ⟨_, rfl, by omega⟩
      · rename_i h1 h2 h3
        rcases h with (h | h) | h
        · exact absurd h h1
        · exact absurd h h2
        · exact absurd h h3

lemma hexVal_lt (c : Char) (v : Nat) (h : hexVal c = some v) : v < 16 := by
  unfold hexVal at h
  split at h
  · rename_i hc
    simp only [Option.some.injEq] at h
    omega
  · split at h
    · rename_i hc
      simp only [Option.some.injEq] at h
      omega
    · split at h
      · rename_i hc
        simp only [Option.some.injEq] at h
        omega
      · simp at h

lemma hexToBuffer_valid (s : JSStr) (hall : s.all isHexChar = true) (heven : s.length % 2 = 0) :
    (hexToBuffer s).length = s.length / 2 ∧ ∀ x ∈ hexToBuffer s, x < 256 := by
  induction s using hexToBuffer.induct with
  | case1 c1 c2 rest hi lo heq2 heq1 ih =>
    simp only [List.all_cons, Bool.and_eq_true] at hall
    simp only [List.length_cons] at heven
    obtain ⟨h1, h2, hrest⟩ := hall
    obtain ⟨ihlen, ihlt⟩ := ih hrest (by omega)
    have hhi16 : hi < 16 := hexVal_lt _ _ heq1
    have hlo16 : lo < 16 := hexVal_lt _ _ heq2
    constructor
    · simp only [hexToBuffer, heq1, heq2, List.length_cons, ihlen]
      omega
    · intro x hx
      simp only [hexToBuffer, heq1, heq2, List.mem_cons] at hx
      rcases hx with rfl | hx
      · omega
      · exact ihlt x hx
  | case2 c1 c2 rest hfail =>
    simp only [List.all_cons, Bool.and_eq_true] at hall
    obtain ⟨h1, h2, hrest⟩ := hall
    obtain ⟨v1, hv1, hb1⟩ := hexVal_isHexChar c1 h1
    obtain ⟨v2, hv2, hb2⟩ := hexVal_isHexChar c2 h2
    exact (hfail v1 v2 hv1 hv2).elim
  | case3 s hshape =>
    cases s with
    | nil => exact ⟨rfl, by simp [hexToBuffer]⟩
    | cons c tail =>
      cases tail with
      | nil => simp at heven
      | cons c2 tail2 => exact (hshape c c2 tail2 rfl).elim

lemma wordsToBytes_lt_256 (ws : List Nat) : ∀ x ∈ wordsToBytes ws, x < 256 := by
  induction ws with
  | nil => simp [wordsToBytes]
  | cons w rest ih =>
    intro x hx
    simp only [wordsToBytes, List.mem_cons] at hx
    rcases hx with rfl | rfl | rfl | rfl | hx
    · omega
    · omega
    · omega
    · omega
    · exact ih x hx

lemma wordsToBytes_length (ws : List Nat) : (wordsToBytes ws).length = 4 * ws.length := by
  induction ws with
  | nil => rfl
  | cons w rest ih =>
    simp only [wordsToBytes, List.length_cons, ih]
    omega

lemma sha256_length (msg : List Nat) : (sha256 msg).length = 32 := by
  simp [sha256, wordsToBytes_length]

lemma sha256_lt_256 (msg : List Nat) : ∀ x ∈ sha256 msg, x < 256 := by
  intro x hx
  simp only [sha256] at hx
  exact wordsToBytes_lt_256 _ x hx

lemma hmacSha256_length (key msg : List Nat) : (hmacSha256 key msg).length = 32 := by
  simp [hmacSha256, sha256_length]

lemma hmacSha256_lt_256 (key msg : List Nat) : ∀ x ∈ hmacSha256 key msg, x < 256 := by
  simp only [hmacSha256]
  exact sha256_lt_256 _

lemma bufferToHex_cons (b : Nat) (rest : List Nat) :
    bufferToHex (b :: rest) = hexDigitChar (b / 16) :: hexDigitChar (b % 16) :: bufferToHex rest := by
  simp [bufferToHex]

lemma bufferToHex_length (bs : List Nat) : (bufferToHex bs).length = 2 * bs.length := by
  induction bs with
  | nil => rfl
  | cons b rest ih =>
    rw [bufferToHex_cons]
    simp only [List.length_cons, ih]
    omega

lemma bufferToHex_take (bs : List Nat) (k : Nat) :
    (bufferToHex bs).take (2 * k) = bufferToHex (bs.take k) := by
  induction bs generalizing k with
  | nil => simp [bufferToHex]
  | cons b rest ih =>
    cases k with
    | zero => simp [bufferToHex]
    | succ j =>
      rw [show 2 * (j + 1) = 2 * j + 1 + 1 from by omega]
      rw [bufferToHex_cons, List.take_succ_cons, List.take_succ_cons, ih,
          List.take_succ_cons, bufferToHex_cons]

/-- Lowercase hex digits as produced by `digest("hex")`. -/
def isLowerHexChar (c : Char) : Bool :=
  (48 ≤ c.toNat && c.toNat ≤ 57) || (97 ≤ c.toNat && c.toNat ≤ 102)

lemma hexDigitChar_lower : ∀ v < 16, isLowerHexChar (hexDigitChar v) = true := by decide

lemma bufferToHex_lower (bs : List Nat) (h : ∀ x ∈ bs, x < 256) :
    ∀ c ∈ bufferToHex bs, isLowerHexChar c = true := by
  induction bs with
  | nil => simp [bufferToHex]
  | cons b rest ih =>
    have hb : b < 256 := h b (by simp)
    intro c hc
    rw [bufferToHex_cons] at hc
    simp only [List.mem_cons] at hc
    rcases hc with rfl | rfl | hc
    · exact hexDigitChar_lower _ (by omega)
    · exact hexDigitChar_lower _ (by omega)
    · exact ih (fun x hx => h x (by simp [hx])) c hc

lemma sign_length (secret payload : List Nat) : (sign secret payload).length = 32 := by
  simp [sign, List.length_take, bufferToHex_length, hmacSha256_length]

lemma sign_eq_take16 (secret payload : List Nat) :
    sign secret payload = bufferToHex ((hmacSha256 secret payload).take 16) := by
  rw [sign, show (32 : Nat) = 2 * 16 from rfl, bufferToHex_take]

lemma sign_lower (secret payload : List Nat) :
    ∀ c ∈ sign secret payload, isLowerHexChar c = true := by
  intro c hc
  rw [sign] at hc
  exact bufferToHex_lower _ (hmacSha256_lt_256 secret payload) c (List.take_subset 32 _ hc)

lemma hexVal_hexDigitChar : ∀ v < 16, hexVal (hexDigitChar v) = some v := by decide

lemma hexToBuffer_bufferToHex (bs : List Nat) (h : ∀ x ∈ bs, x < 256) :
    hexToBuffer (bufferToHex bs) = bs := by
  induction bs with
  | nil => rfl
  | cons b rest ih =>
    have hb : b < 256 := h b (by simp)
    rw [bufferToHex_cons]
    simp only [hexToBuffer, hexVal_hexDigitChar (b / 16) (by omega),
      hexVal_hexDigitChar (b % 16) (by omega)]
    rw [ih (fun x hx => h x (by simp [hx]))]
    congr 1
    omega

/-- The six bytes `writeUIntBE` produces for an in-range 48-bit value. -/
def ts48Bytes (ts : Nat) : List Nat :=
  [ts / 2 ^ 40 % 256, ts / 2 ^ 32 % 256, ts / 2 ^ 24 % 256,
   ts / 2 ^ 16 % 256, ts / 2 ^ 8 % 256, ts % 256]

lemma writeUInt48BE_ok (ts : Nat) (h : ts < 2 ^ 48) :
    writeUInt48BE ts = .ok (ts48Bytes ts) := by
  rw [writeUInt48BE, if_pos h]
  rfl

lemma ts48Bytes_lt_256 (ts : Nat) : ∀ x ∈ ts48Bytes ts, x < 256 := by
  intro x hx
  simp only [ts48Bytes, List.mem_cons] at hx
  rcases hx with rfl | rfl | rfl | rfl | rfl | rfl | hx
  · omega
  · omega
  · omega
  · omega
  · omega
  · omega
  · simp at hx

lemma packPayload_ok (ts : Nat) (input : GenerateQrInput) (h : ts < 2 ^ 48) :
    packPayload ts input = .ok (ts48Bytes ts ++ hexToBuffer input.data_hash
      ++ hexToBuffer input.metadata_series ++ hexToBuffer input.metadata_issued
      ++ hexToBuffer input.metadata_expiry) := by
  simp [packPayload, writeUInt48BE_ok ts h]

/-- `subarray` on a middle run of a concatenation. -/
lemma sub_append (pre mid post : List Nat) :
    sub (pre ++ (mid ++ post)) pre.length (pre.length + mid.length) = mid := by
  simp only [sub, List.drop_left]
  rw [show pre.length + mid.length - pre.length = mid.length from by omega, List.take_left]

lemma assertHexLength_ok (label : String) (value : JSStr) (n : Nat)
    (h : assertHexLength label value n = .ok ()) :
    value.all isHexChar = true ∧ value.length = n := by
  unfold assertHexLength at h
  split at h
  · exact Except.noConfusion h
  · split at h
    · exact Except.noConfusion h
    · rename_i h1 h2
      refine ⟨?_, by simpa using h2⟩
      rcases Bool.eq_false_or_eq_true (value.all isHexChar) with hall | hall
      · exact hall
      · exact absurd (by simp [hall]) h1

lemma validateGenerateInput_ok (input : GenerateQrInput)
    (h : validateGenerateInput input = .ok ()) :
    (input.data_hash.all isHexChar = true ∧ input.data_hash.length = 8)
    ∧ (input.metadata_series.all isHexChar = true ∧ input.metadata_series.length = 16)
    ∧ (input.metadata_issued.all isHexChar = true ∧ input.metadata_issued.length = 16)
    ∧ (input.metadata_expiry.all isHexChar = true ∧ input.metadata_expiry.length = 16) := by
  unfold validateGenerateInput at h
  split at h
  · exact Except.noConfusion h
  · rename_i h1
    split at h
    · exact Except.noConfusion h
    · rename_i h2
      split at h
      · exact Except.noConfusion h
      · rename_i h3
        exact ⟨assertHexLength_ok _ _ _ h1, assertHexLength_ok _ _ _ h2,
          assertHexLength_ok _ _ _ h3, assertHexLength_ok _ _ _ h⟩

lemma mem_base64UrlNoPad_ne_pad (bs : List Nat) (h : ∀ x ∈ bs, x < 256) :
    ∀ c ∈ base64UrlNoPad bs, (c != '=') = true := by
  rw [base64UrlNoPad_eq_map bs h]
  intro c hc
  simp only [List.mem_map] at hc
  obtain ⟨v, hvmem, rfl⟩ := hc
  exact uE_b64Char_ne_pad v (bytesToVals_lt_64 bs h v hvmem)

lemma base64UrlNoPad_length_34 (bs : List Nat) (h : ∀ x ∈ bs, x < 256)
    (hlen : bs.length = 34) : (base64UrlNoPad bs).length = 46 := by
  rw [base64UrlNoPad_eq_map bs h, List.length_map,
      bytesToVals_length_mod3_one bs (by omega), hlen]

/-- Unpacking the packed concatenation recovers the four field byte runs. -/
lemma unpack_pack (t d s i e : List Nat) (ht : t.length = 6) (hd : d.length = 4)
    (hs : s.length = 8) (hi : i.length = 8) (he : e.length = 8) :
    unpackPayload (t ++ d ++ s ++ i ++ e)
      = some ⟨bufferToHex d, bufferToHex s, bufferToHex i, bufferToHex e⟩ := by
  have hlen : (t ++ d ++ s ++ i ++ e).length = 34 := by
    simp only [List.length_append]
    omega
  have h1 : sub (t ++ d ++ s ++ i ++ e) 6 10 = d := by
    have := sub_append t d (s ++ i ++ e)
    rw [ht, hd] at this
    simpa [List.append_assoc] using this
  have h2 : sub (t ++ d ++ s ++ i ++ e) 10 18 = s := by
    have := sub_append (t ++ d) s (i ++ e)
    rw [List.length_append, ht, hd, hs] at this
    simpa [List.append_assoc] using this
  have h3 : sub (t ++ d ++ s ++ i ++ e) 18 26 = i := by
    have := sub_append (t ++ d ++ s) i e
    rw [List.length_append, List.length_append, ht, hd, hs, hi] at this
    simpa [List.append_assoc] using this
  have h4 : sub (t ++ d ++ s ++ i ++ e) 26 34 = e := by
    have := sub_append (t ++ d ++ s ++ i) e []
    rw [List.length_append, List.length_append, List.length_append,
        ht, hd, hs, hi, he, List.append_nil] at this
    simpa [List.append_assoc] using this
  rw [unpackPayload, if_neg (by simp only [List.length_append]; omega), h1, h2, h3, h4]

/-! ### Claim theorems -/

/-- **C8**: `unpack` (the length guard plus field extraction inside
`decodeToken`) fails on every buffer whose length differs from 34 bytes,
returning `none` — no field record, partial or otherwise, is produced. -/
theorem C8_unpack_rejects_wrong_length (payload : List Nat) (h : payload.length ≠ 34) :
    unpackPayload payload = none := by
  rw [unpackPayload, if_pos h]

/-- Witness for C8 at a concrete 33-byte buffer. -/
theorem C8_unpack_rejects_wrong_length_witness :
    (List.replicate 33 0).length ≠ 34 ∧ unpackPayload (List.replicate 33 0) = none :=
  ⟨by decide, C8_unpack_rejects_wrong_length (List.replicate 33 0) (by decide)⟩

/-- Bytes of the ASCII secret string used for concrete instantiations. -/
def secretA : List Nat := [115, 101, 99, 114, 101, 116]

/-- The generate scenario input documented in the spec. -/
def inputA : GenerateQrInput :=
  ⟨"a1b2c3d4".toList, "1234567890abcdef".toList,
   "0011223344556677".toList, "8899aabbccddeeff".toList⟩

lemma generate_field_facts (input : GenerateQrInput)
    (hval : validateGenerateInput input = .ok ()) :
    ((hexToBuffer input.data_hash).length = 4 ∧ ∀ x ∈ hexToBuffer input.data_hash, x < 256)
    ∧ ((hexToBuffer input.metadata_series).length = 8
        ∧ ∀ x ∈ hexToBuffer input.metadata_series, x < 256)
    ∧ ((hexToBuffer input.metadata_issued).length = 8
        ∧ ∀ x ∈ hexToBuffer input.metadata_issued, x < 256)
    ∧ ((hexToBuffer input.metadata_expiry).length = 8
        ∧ ∀ x ∈ hexToBuffer input.metadata_expiry, x < 256) := by
  obtain ⟨⟨a1, l1⟩, ⟨a2, l2⟩, ⟨a3, l3⟩, ⟨a4, l4⟩⟩ := validateGenerateInput_ok input hval
  have f1 := hexToBuffer_valid _ a1 (by omega)
  have f2 := hexToBuffer_valid _ a2 (by omega)
  have f3 := hexToBuffer_valid _ a3 (by omega)
  have f4 := hexToBuffer_valid _ a4 (by omega)
  exact ⟨⟨by rw [f1.1, l1], f1.2⟩, ⟨by rw [f2.1, l2], f2.2⟩,
    ⟨by rw [f3.1, l3], f3.2⟩, ⟨by rw [f4.1, l4], f4.2⟩⟩

lemma packed_payload_lt (ts : Nat) (input : GenerateQrInput)
    (hval : validateGenerateInput input = .ok ()) :
    (∀ x ∈ ts48Bytes ts ++ hexToBuffer input.data_hash ++ hexToBuffer input.metadata_series
        ++ hexToBuffer input.metadata_issued ++ hexToBuffer input.metadata_expiry, x < 256)
    ∧ (ts48Bytes ts ++ hexToBuffer input.data_hash ++ hexToBuffer input.metadata_series
        ++ hexToBuffer input.metadata_issued ++ hexToBuffer input.metadata_expiry).length = 34 := by
  obtain ⟨⟨ld, bd⟩, ⟨ls, bs'⟩, ⟨li, bi⟩, ⟨le, be'⟩⟩ := generate_field_facts input hval
  constructor
  · intro x hx
    simp only [List.mem_append] at hx
    rcases hx with ((((hx | hx) | hx) | hx) | hx)
    · exact ts48Bytes_lt_256 ts x hx
    · exact bd x hx
    · exact bs' x hx
    · exact bi x hx
    · exact be' x hx
  · simp only [ts48Bytes, List.length_append, List.length_cons, List.length_nil,
      ld, ls, li, le]

/-- **C5**: for every field combination passing the hex validation and every
timestamp fitting in 48 bits, decoding the token produced by packing,
signing and encoding recovers the original field bytes exactly (the decoded
hex text is the lowercase re-encoding of the very same bytes). -/
theorem C5_roundtrip (secret : List Nat) (ts : Nat) (input : GenerateQrInput)
    (hval : validateGenerateInput input = .ok ()) (hts : ts < 2 ^ 48) :
    ∃ payload, packPayload ts input = .ok payload ∧ payload.length = 34
      ∧ QrService.decodeToken (encodeToken secret payload)
          = some ⟨bufferToHex (hexToBuffer input.data_hash),
                  bufferToHex (hexToBuffer input.metadata_series),
                  bufferToHex (hexToBuffer input.metadata_issued),
                  bufferToHex (hexToBuffer input.metadata_expiry)⟩
      ∧ hexToBuffer (bufferToHex (hexToBuffer input.data_hash)) = hexToBuffer input.data_hash
      ∧ hexToBuffer (bufferToHex (hexToBuffer input.metadata_series))
          = hexToBuffer input.metadata_series
      ∧ hexToBuffer (bufferToHex (hexToBuffer input.metadata_issued))
          = hexToBuffer input.metadata_issued
      ∧ hexToBuffer (bufferToHex (hexToBuffer input.metadata_expiry))
          = hexToBuffer input.metadata_expiry := by
  obtain ⟨⟨ld, bd⟩, ⟨ls, bs'⟩, ⟨li, bi⟩, ⟨le, be'⟩⟩ := generate_field_facts input hval
  obtain ⟨hlt, hlen⟩ := packed_payload_lt ts input hval
  refine ⟨ts48Bytes ts ++ hexToBuffer input.data_hash ++ hexToBuffer input.metadata_series
      ++ hexToBuffer input.metadata_issued ++ hexToBuffer input.metadata_expiry,
    by rw [packPayload, writeUInt48BE_ok ts hts], hlen, ?_,
    hexToBuffer_bufferToHex _ bd, hexToBuffer_bufferToHex _ bs',
    hexToBuffer_bufferToHex _ bi, hexToBuffer_bufferToHex _ be'⟩
  rw [decodeToken_encodeToken _ _ hlt]
  exact unpack_pack _ _ _ _ _ rfl ld ls li le

/-- Witness for C5 at the documented scenario input and a fixed timestamp. -/
theorem C5_roundtrip_witness :
    ∃ payload, packPayload 1700000000000 inputA = .ok payload
      ∧ QrService.decodeToken (encodeToken secretA payload)
          = some ⟨bufferToHex (hexToBuffer inputA.data_hash),
                  bufferToHex (hexToBuffer inputA.metadata_series),
                  bufferToHex (hexToBuffer inputA.metadata_issued),
                  bufferToHex (hexToBuffer inputA.metadata_expiry)⟩ := by
  obtain ⟨p, h1, _, h3, _⟩ := C5_roundtrip secretA 1700000000000 inputA (by decide) (by decide)
  exact ⟨p, h1, h3⟩

/-- **C7**: for every valid input the token is
`<payload-b64url>.<sig-hex>` where the payload segment is the unpadded
URL-safe Base64 of the 34-byte payload (46 characters, no `=`), the
signature segment is the first 16 bytes of the HMAC-SHA-256 digest as 32
lowercase hex characters, and the total length is the constant 79. -/
theorem C7_token_shape (secret : List Nat) (ts : Nat) (input : GenerateQrInput)
    (hval : validateGenerateInput input = .ok ()) (hts : ts < 2 ^ 48) :
    ∃ payload, packPayload ts input = .ok payload ∧ payload.length = 34
      ∧ encodeToken secret payload = base64UrlNoPad payload ++ '.' :: sign secret payload
      ∧ (base64UrlNoPad payload).length = 46
      ∧ (∀ c ∈ base64UrlNoPad payload, (c != '=') = true)
      ∧ sign secret payload = bufferToHex ((hmacSha256 secret payload).take 16)
      ∧ (sign secret payload).length = 32
      ∧ (∀ c ∈ sign secret payload, isLowerHexChar c = true)
      ∧ (encodeToken secret payload).length = 79 := by
  obtain ⟨hlt, hlen⟩ := packed_payload_lt ts input hval
  refine ⟨ts48Bytes ts ++ hexToBuffer input.data_hash ++ hexToBuffer input.metadata_series
      ++ hexToBuffer input.metadata_issued ++ hexToBuffer input.metadata_expiry,
    by rw [packPayload, writeUInt48BE_ok ts hts], hlen, rfl,
    base64UrlNoPad_length_34 _ hlt hlen, mem_base64UrlNoPad_ne_pad _ hlt,
    sign_eq_take16 _ _, sign_length _ _, sign_lower _ _, ?_⟩
  simp only [encodeToken, List.length_append, List.length_cons,
    base64UrlNoPad_length_34 _ hlt hlen, sign_length]

/-- Witness for C7 at a concrete input and a fixed timestamp. -/
theorem C7_token_shape_witness :
    ∃ payload, packPayload 42 inputA = .ok payload
      ∧ (encodeToken secretA payload).length = 79 := by
  obtain ⟨p, h1, _, _, _, _, _, _, _, h9⟩ := C7_token_shape secretA 42 inputA (by decide) (by decide)
  exact ⟨p, h1, h9⟩

/-- Big-endian value of a byte list (most significant first). -/
def be6 (bs : List Nat) : Nat := bs.foldl (fun acc b => acc * 256 + b) 0

/-- **C9**: a timestamp that does not fit in 48 bits makes the 6-byte
`writeUIntBE` — and hence payload packing — fail with Node's range error
rather than wrap or saturate; under the 48-bit precondition the write
succeeds, producing exactly six bytes whose big-endian value is the
original timestamp (so the error branch is unreachable there). -/
theorem C9_timestamp_range (ts : Nat) (input : GenerateQrInput) :
    (2 ^ 48 ≤ ts →
      writeUInt48BE ts = .error "ERR_OUT_OF_RANGE"
      ∧ packPayload ts input = .error "ERR_OUT_OF_RANGE")
    ∧ (ts < 2 ^ 48 →
      writeUInt48BE ts = .ok (ts48Bytes ts)
      ∧ (ts48Bytes ts).length = 6
      ∧ be6 (ts48Bytes ts) = ts) := by
  constructor
  · intro h
    have herr : writeUInt48BE ts = .error "ERR_OUT_OF_RANGE" := by
      rw [writeUInt48BE, if_neg (by omega)]
    refine ⟨herr, ?_⟩
    rw [packPayload, herr]
  · intro h
    refine ⟨writeUInt48BE_ok ts h, rfl, ?_⟩
    simp only [be6, ts48Bytes, List.foldl]
    omega

/-- Witness for C9 at the first out-of-range value and at an in-range value. -/
theorem C9_timestamp_range_witness :
    packPayload (2 ^ 48) ⟨[], [], [], []⟩ = .error "ERR_OUT_OF_RANGE"
    ∧ be6 (ts48Bytes 1700000000000) = 1700000000000 :=
  ⟨((C9_timestamp_range (2 ^ 48) ⟨[], [], [], []⟩).1 (by omega)).2,
   ((C9_timestamp_range 1700000000000 ⟨[], [], [], []⟩).2 (by omega)).2.2⟩

lemma unpackPayload_some_lengths (p : List Nat) (m : DecodedMeta)
    (h : unpackPayload p = some m) :
    m.data_hash.length = 8 ∧ m.metadata_series.length = 16
      ∧ m.metadata_issued.length = 16 ∧ m.metadata_expiry.length = 16 := by
  rw [unpackPayload] at h
  split at h
  · exact Option.noConfusion h
  · rename_i hne
    have hlen : p.length = 34 := by omega
    simp only [Option.some.injEq] at h
    subst h
    simp only [bufferToHex_length, sub, List.length_take, List.length_drop, hlen]
    omega

/-- **C10**: `decodeToken` is total over arbitrary token strings — it returns
either a fully populated four-field record (fields of hex length 8/16/16/16)
or `none`, never an exception — and `verify` returns a well-formed result for
every detector-supplied token string, however malformed, so a malformed token
never raises an error to the caller. -/
theorem C10_decode_total (t : JSStr) :
    (∀ m, QrService.decodeToken t = some m →
      m.data_hash.length = 8 ∧ m.metadata_series.length = 16
        ∧ m.metadata_issued.length = 16 ∧ m.metadata_expiry.length = 16)
    ∧ (∀ (cs : Option Rat) (ia : Option Bool) (now : Nat) (img : JSStr)
        (store : List VerifyRecord),
        QrService.verify ⟨.ok (some ⟨some t, cs, ia⟩), .ok (), now⟩ img store
          = (.ok ⟨ia.getD false, cs.getD 0,
              if truthyStr (some t) then QrService.decodeToken t else none⟩,
             store ++ [⟨some t, cs.getD 0, ia.getD false, now⟩])) := by
  constructor
  · intro m hm
    simp only [QrService.decodeToken] at hm
    exact unpackPayload_some_lengths _ _ hm
  · intro cs ia now img store
    rfl

/-- Witness for C10: a detector response carrying a non-Base64 token string
still verifies without an error, with `decoded_meta = none`. -/
theorem C10_decode_total_witness :
    QrService.verify ⟨.ok (some ⟨some ("not base64!!".toList), none, none⟩), .ok (), 7⟩ [] []
      = (.ok ⟨false, 0, none⟩, [⟨some ("not base64!!".toList), 0, false, 7⟩]) :=
  (C10_decode_total ("not base64!!".toList)).2 none none 7 [] []

/-- A syntactically valid token: 46 `A` payload characters (34 zero bytes)
and an all-zeros 32-character signature segment. -/
def tokenSigZero : JSStr := List.replicate 46 'A' ++ '.' :: List.replicate 32 '0'

/-- The same payload with an all-ones signature segment. -/
def tokenSigOne : JSStr := List.replicate 46 'A' ++ '.' :: List.replicate 32 '1'

/-- The metadata record of the all-zero 34-byte payload. -/
def zeroMeta : DecodedMeta :=
  ⟨List.replicate 8 '0', List.replicate 16 '0', List.replicate 16 '0', List.replicate 16 '0'⟩

set_option maxRecDepth 40000 in
/-- **C1 counterexample**: a syntactically valid token whose signature segment
does not equal the recomputed HMAC still decodes — `decodeToken` succeeds and
`verify` reports the decoded metadata instead of `null`. -/
theorem C1_counterexample :
    sign secretA (List.replicate 34 0) ≠ List.replicate 32 '0'
    ∧ QrService.decodeToken tokenSigZero = some zeroMeta
    ∧ (QrService.verify ⟨.ok (some ⟨some tokenSigZero, some (9 / 10 : Rat), some true⟩),
        .ok (), 0⟩ [] []).1 = .ok ⟨true, 9 / 10, some zeroMeta⟩ := by
  refine ⟨by decide, by decide, rfl⟩

/-- **C1 amended**: `decodeToken` ignores the signature segment entirely —
two tokens with the same payload segment and different signatures decode
identically — and during verification the decode result (non-null for any
token whose payload decodes to 34 bytes) is reported alongside the
detector's own `is_authentic` and `confidence_score` values. -/
theorem C1_amended :
    (∀ (p s1 s2 : JSStr), (∀ c ∈ p, (c != '.') = true) →
      QrService.decodeToken (p ++ '.' :: s1) = QrService.decodeToken (p ++ '.' :: s2))
    ∧ (∀ (tok : JSStr) (m : DecodedMeta) (cs : Option Rat) (ia : Option Bool)
        (now : Nat) (img : JSStr) (store : List VerifyRecord),
        QrService.decodeToken tok = some m →
        QrService.verify ⟨.ok (some ⟨some tok, cs, ia⟩), .ok (), now⟩ img store
          = (.ok ⟨ia.getD false, cs.getD 0, some m⟩,
             store ++ [⟨some tok, cs.getD 0, ia.getD false, now⟩])) := by
  constructor
  · intro p s1 s2 h
    simp only [QrService.decodeToken]
    rw [takeWhile_append_dot p s1 h, takeWhile_append_dot p s2 h]
  · intro tok m cs ia now img store hm
    cases tok with
    | nil => exact Option.noConfusion hm
    | cons c rest =>
      simp [QrService.verify, QrService.verifyE, truthyStr, hm]

/-- Witness for C1 amended: the all-ones-signature token decodes to the same
record, and verification carries the detector flags next to it. -/
theorem C1_amended_witness :
    QrService.verify ⟨.ok (some ⟨some tokenSigOne, some (4 / 5 : Rat), some true⟩),
        .ok (), 3⟩ [] []
      = (.ok ⟨true, 4 / 5, some zeroMeta⟩, [⟨some tokenSigOne, 4 / 5, true, 3⟩]) :=
  C1_amended.2 tokenSigOne zeroMeta (some (4 / 5 : Rat)) (some true) 3 [] [] (by decide)

/-- **C2 counterexample**: when the detection call itself rejects (for
example a timeout), `verify` propagates the error and the verification store
is left unchanged — no record is appended for that attempt. -/
theorem C2_counterexample :
    QrService.verify ⟨.error "ECONNABORTED timeout of 10000ms exceeded", .ok (), 0⟩ [] []
      = (.error (.upstream "ECONNABORTED timeout of 10000ms exceeded"), []) := rfl

/-- **C2 amended**: exactly one verification record (possibly-null token,
defaulted score, authenticity flag) is appended whenever the detection call
returns a response — including responses with no token — and the insert
succeeds; when the detection call rejects or the insert fails, the error
propagates and no record is appended. -/
theorem C2_amended (deps : VerifyDeps) (img : JSStr) (store : List VerifyRecord) :
    (∀ d, deps.detectResult = .ok d → deps.verifyInsert = .ok () →
      QrService.verify deps img store
        = (.ok ⟨(d.getD ⟨none, none, none⟩).is_authentic.getD false,
                (d.getD ⟨none, none, none⟩).confidence_score.getD 0,
                if truthyStr (d.getD ⟨none, none, none⟩).token
                  then QrService.decodeToken ((d.getD ⟨none, none, none⟩).token.getD [])
                  else none⟩,
           store ++ [⟨(d.getD ⟨none, none, none⟩).token,
                      (d.getD ⟨none, none, none⟩).confidence_score.getD 0,
                      (d.getD ⟨none, none, none⟩).is_authentic.getD false, deps.now⟩]))
    ∧ (∀ m, deps.detectResult = .error m →
        QrService.verify deps img store = (.error (.upstream m), store))
    ∧ (∀ d m, deps.detectResult = .ok d → deps.verifyInsert = .error m →
        QrService.verify deps img store = (.error (.persistence m), store)) := by
  obtain ⟨det, ins, now⟩ := deps
  refine ⟨?_, ?_, ?_⟩
  · rintro d rfl rfl
    rfl
  · rintro m rfl
    rfl
  · rintro d m rfl rfl
    rfl

/-- Witness for C2 amended: the documented no-token scenario appends exactly
one record with a null token. -/
theorem C2_amended_witness :
    QrService.verify ⟨.ok (some ⟨none, some (1 / 5 : Rat), some false⟩), .ok (), 11⟩ [] []
      = (.ok ⟨false, 1 / 5, none⟩, [⟨none, 1 / 5, false, 11⟩]) :=
  (C2_amended ⟨.ok (some ⟨none, some (1 / 5 : Rat), some false⟩), .ok (), 11⟩ [] []).1
    (some ⟨none, some (1 / 5 : Rat), some false⟩) rfl rfl

/-- A successful render response carrying an image string. -/
def renderOk : Except String (Option RenderData) := .ok (some ⟨some ("aW1n".toList)⟩)

/-- **C3 counterexample**: when the audit insert fails after a successful
render, the persistence error propagates to the caller — the token/image
pair is NOT returned — and no audit record is appended. -/
theorem C3_counterexample :
    QrService.generate secretA ⟨1700000000000, renderOk, .error "insert failed", 1700000000000⟩
        inputA []
      = (.error (.persistence "insert failed"), []) := rfl

/-- **C3 amended**: an audit-write failure after a successful render makes
`generate` fail with the persistence error (no token is returned, no record
appended); on success the audit record — carrying the returned token — is
appended before `generate` returns, so the write is attempted synchronously. -/
theorem C3_amended (secret : List Nat) (deps : GenerateDeps) (input : GenerateQrInput)
    (audit : List AuditRecord)
    (hval : validateGenerateInput input = .ok ()) (hts : deps.timestampMs < 2 ^ 48) :
    (∀ r m, deps.renderResult = .ok r → deps.auditInsert = .error m →
      QrService.generate secret deps input audit = (.error (.persistence m), audit))
    ∧ (∀ r, deps.renderResult = .ok r → deps.auditInsert = .ok () →
        ∃ payload, packPayload deps.timestampMs input = .ok payload
          ∧ QrService.generate secret deps input audit
              = (.ok ⟨encodeToken secret payload, r.bind (fun x => x.qr_image_base64)⟩,
                 audit ++ [⟨encodeToken secret payload, input.data_hash,
                            input.metadata_series, input.metadata_issued,
                            input.metadata_expiry, deps.now⟩])) := by
  obtain ⟨ts, render, insert, now⟩ := deps
  dsimp only at hts ⊢
  constructor
  · rintro r m rfl rfl
    simp only [QrService.generate, QrService.generateE, hval, packPayload_ok ts input hts]
  · rintro r rfl rfl
    refine ⟨_, packPayload_ok ts input hts, ?_⟩
    simp only [QrService.generate, QrService.generateE, hval, packPayload_ok ts input hts]

/-- Witness for C3 amended: a concrete audit-insert failure after a
successful render fails the whole call and leaves the store unchanged. -/
theorem C3_amended_witness :
    QrService.generate secretA ⟨99, renderOk, .error "db unavailable", 99⟩ inputA []
      = (.error (.persistence "db unavailable"), []) :=
  (C3_amended secretA ⟨99, renderOk, .error "db unavailable", 99⟩ inputA []
    (by decide) (by decide)).1 (some ⟨some ("aW1n".toList)⟩) "db unavailable" rfl rfl

/-- An input whose first two fields are both non-hex. -/
def inputBad : GenerateQrInput :=
  ⟨"zzzzzzzz".toList, "gggggggggggggggg".toList,
   "0011223344556677".toList, "8899aabbccddeeff".toList⟩

/-- **C4 counterexample**: with two invalid fields, the failure names only
the first (`data_hash`) even though `metadata_series` is also invalid — the
violations are not reported all at once. No token, no audit write. -/
theorem C4_counterexample :
    QrService.generate secretA ⟨0, renderOk, .ok (), 0⟩ inputBad []
      = (.error (.http ⟨400, "data_hash must be hex string"⟩), [])
    ∧ assertHexLength "metadata_series" inputBad.metadata_series 16
        = .error ⟨400, "metadata_series must be hex string"⟩ :=
  ⟨rfl, rfl⟩

/-- **C4 amended**: validation is fail-fast in source order — whenever the
sequential per-field validation chain fails, `generate` returns that first
per-field error (whose message names the offending field), produces no
token, and writes no audit record. -/
theorem C4_amended (secret : List Nat) (deps : GenerateDeps) (input : GenerateQrInput)
    (audit : List AuditRecord) (e : HttpException)
    (hval : validateGenerateInput input = .error e) :
    QrService.generate secret deps input audit = (.error (.http e), audit) := by
  simp only [QrService.generate, QrService.generateE, hval]

/-- The documented invalid-field scenario: `data_hash` of length 6. -/
def inputShort : GenerateQrInput :=
  ⟨"a1b2c3".toList, "1234567890abcdef".toList,
   "0011223344556677".toList, "8899aabbccddeeff".toList⟩

/-- Witness for C4 amended at the documented scenario: the failure names
`data_hash` specifically, with no token and no audit write. -/
theorem C4_amended_witness :
    QrService.generate secretA ⟨3, renderOk, .ok (), 3⟩ inputShort []
      = (.error (.http ⟨400, "data_hash must be 8 hex chars"⟩), []) :=
  C4_amended secretA ⟨3, renderOk, .ok (), 3⟩ inputShort []
    ⟨400, "data_hash must be 8 hex chars"⟩ (by decide)

/-- An environment defining only the three keys without defaults. -/
def envMinimal : String → Option String := fun k =>
  if k = "MONGO_URI" then some "mongodb://db"
  else if k = "PYTHON_SERVICE_URL" then some "http://core"
  else if k = "HMAC_SECRET" then some "s3cret"
  else none

/-- **C6 counterexample**: with the HTTP port, database name, and
external-call timeout all missing, configuration loading still succeeds
(falling back to defaults), so those options are not mandatory. -/
theorem C6_counterexample :
    envMinimal "PORT" = none ∧ envMinimal "MONGO_DB" = none
    ∧ envMinimal "REQUEST_TIMEOUT_MS" = none
    ∧ loadConfig envMinimal
        = .ok ⟨"8080", "mongodb://db", "protected_qr", "http://core", "s3cret",
               "info", "10000"⟩ :=
  ⟨rfl, rfl, rfl, rfl⟩

lemma requiredEnv_none_ok_iff (env : String → Option String) (k : String) :
    (∃ v, requiredEnv env k none = .ok v) ↔ (∃ v, env k = some v ∧ v ≠ "") := by
  unfold requiredEnv
  cases henv : env k with
  | none => simp
  | some s =>
    by_cases hs : s = ""
    · subst hs
      simp
    · simp [hs]

lemma requiredEnv_fb_ok_iff (env : String → Option String) (k fb : String) (hfb : fb ≠ "") :
    (∃ v, requiredEnv env k (some fb) = .ok v)
      ↔ (env k = none ∨ ∃ v, env k = some v ∧ v ≠ "") := by
  unfold requiredEnv
  cases henv : env k with
  | none => simp [hfb]
  | some s =>
    by_cases hs : s = ""
    · subst hs
      simp
    · simp [hs]

/-- **C6 amended**: only the store connection string (`MONGO_URI`), the
pattern-service base URL (`PYTHON_SERVICE_URL`), and the signing secret
(`HMAC_SECRET`) are mandatory (present and non-empty; `MONGO_DB` may be
absent thanks to its default but must not be empty when present); port,
database name, timeout, and log verbosity have defaults. Start-up
configuration succeeds exactly under these conditions; otherwise the first
missing mandatory option aborts loading with a fatal error. -/
theorem C6_amended (env : String → Option String) :
    (∃ c, loadConfig env = .ok c) ↔
      ((∃ v, env "MONGO_URI" = some v ∧ v ≠ "")
        ∧ (env "MONGO_DB" = none ∨ ∃ v, env "MONGO_DB" = some v ∧ v ≠ "")
        ∧ (∃ v, env "PYTHON_SERVICE_URL" = some v ∧ v ≠ "")
        ∧ (∃ v, env "HMAC_SECRET" = some v ∧ v ≠ "")) := by
  constructor
  · rintro ⟨c, hc⟩
    unfold loadConfig at hc
    cases h1 : requiredEnv env "MONGO_URI" none with
    | error e =>
      rw [h1] at hc
      exact Except.noConfusion hc
    | ok v1 =>
      rw [h1] at hc
      cases h2 : requiredEnv env "MONGO_DB" (some "protected_qr") with
      | error e =>
        rw [h2] at hc
        exact Except.noConfusion hc
      | ok v2 =>
        rw [h2] at hc
        cases h3 : requiredEnv env "PYTHON_SERVICE_URL" none with
        | error e =>
          rw [h3] at hc
          exact Except.noConfusion hc
        | ok v3 =>
          rw [h3] at hc
          cases h4 : requiredEnv env "HMAC_SECRET" none with
          | error e =>
            rw [h4] at hc
            exact Except.noConfusion hc
          | ok v4 =>
            exact ⟨(requiredEnv_none_ok_iff env "MONGO_URI").mp ⟨v1, h1⟩,
              (requiredEnv_fb_ok_iff env "MONGO_DB" "protected_qr" (by decide)).mp ⟨v2, h2⟩,
              (requiredEnv_none_ok_iff env "PYTHON_SERVICE_URL").mp ⟨v3, h3⟩,
              (requiredEnv_none_ok_iff env "HMAC_SECRET").mp ⟨v4, h4⟩⟩
  · rintro ⟨⟨v1, hv1, hne1⟩, h2', ⟨v3, hv3, hne3⟩, ⟨v4, hv4, hne4⟩⟩
    have r1 : requiredEnv env "MONGO_URI" none = .ok v1 := by
      unfold requiredEnv
      rw [hv1]
      simp [hne1]
    have r3 : requiredEnv env "PYTHON_SERVICE_URL" none = .ok v3 := by
      unfold requiredEnv
      rw [hv3]
      simp [hne3]
    have r4 : requiredEnv env "HMAC_SECRET" none = .ok v4 := by
      unfold requiredEnv
      rw [hv4]
      simp [hne4]
    have r2 : ∃ v2, requiredEnv env "MONGO_DB" (some "protected_qr") = .ok v2 := by
      rcases h2' with h0 | ⟨v2, hv2, hne2⟩
      · refine ⟨"protected_qr", ?_⟩
        unfold requiredEnv
        rw [h0]
        rfl
      · refine ⟨v2, ?_⟩
        unfold requiredEnv
        rw [hv2]
        simp [hne2]
    obtain ⟨v2, r2⟩ := r2
    refine ⟨⟨(env "PORT").getD "8080", v1, v2, v3, v4, (env "LOG_LEVEL").getD "info",
      (env "REQUEST_TIMEOUT_MS").getD "10000"⟩, ?_⟩
    unfold loadConfig
    rw [r1, r2, r3, r4]

/-- An environment defining all mandatory keys plus the database name. -/
def envFull : String → Option String := fun k =>
  if k = "MONGO_URI" then some "mongodb://h"
  else if k = "PYTHON_SERVICE_URL" then some "http://p"
  else if k = "HMAC_SECRET" then some "k"
  else if k = "MONGO_DB" then some "qrdb"
  else none

/-- Witness for C6 amended: the three mandatory options plus a database name
suffice for start-up. -/
theorem C6_amended_witness : ∃ c, loadConfig envFull = .ok c :=
  (C6_amended envFull).mpr ⟨⟨"mongodb://h", rfl, by decide⟩,
    .inr ⟨"qrdb", rfl, by decide⟩, ⟨"http://p", rfl, by decide⟩, ⟨"k", rfl, by decide⟩⟩

end PQR
